import Mathlib

/-!
Shallow embedding of the deep-research pipeline (src/main.ts).

External collaborators (search provider, URL relevance selector, page
fetcher, generative text service) are modelled as components of an
environment `Env` of pure functions.  The pipeline functions are direct
translations of the TypeScript code.  Promise rejection (an exception
thrown by an awaited call) is modelled with `Except Unit`; a JS value
that may be `undefined` is modelled with `Option`.  Machine strings are
modelled as `String` (a list of characters); JS string `.length` and the
regex quantifier count is taken at character granularity.
-/

/-- Kind tag of one research task (`type: "web" | "ai"` in the source). -/
inductive ResearchType where
  | web
  | ai
deriving DecidableEq, Repr

/-- One entry of the research plan (`interface ResearchPlan` in src/main.ts). -/
structure ResearchPlan where
  title : String
  objectives : String
  expectedOutcomes : String
  type : ResearchType
  query : String
deriving DecidableEq, Repr

/-- A fetched page (`interface WebContent` in src/main.ts). -/
structure WebContent where
  title : String
  content : String
  url : String
deriving DecidableEq, Repr

/-- One search hit (`interface SearchResult` in src/main.ts). -/
structure SearchResult where
  title : String
  url : String
  content : String
deriving DecidableEq, Repr

/-- A reference attached to a task result (`{url, title}` in src/main.ts). -/
structure Reference where
  url : String
  title : String
deriving DecidableEq, Repr

/-- The result of one task (`interface ResearchSummary` in src/main.ts). -/
structure ResearchSummary where
  answer : String
  references : List Reference
deriving DecidableEq, Repr

/-- The JSON body returned by the URL-parser service used in
`fetchWebContent`.  `content` is `none` when the field is absent or null. -/
structure ParsedPage where
  title : String
  url : String
  content : Option String
deriving DecidableEq, Repr

/-- Outcome of one `fetch` of the URL-parser service: either the fetch
itself rejects (`fetchExn`), or it yields a status code together with the
body, whose JSON parse may itself throw. -/
inductive FetchOutcome where
  | fetchExn
  | response (status : Nat) (body : Except Unit ParsedPage)

/-- The environment of external collaborators.
`search q page` is the `results` field of the search response (`none`
models an absent field).  `selectUrls` is the structured-generation URL
relevance selector (src/main.ts `getRelevantUrls`), already unwrapped to
the list of url strings.  `fetch` is the URL-parser fetch.
`gen sys prompt` is the generative text service (`generateText`); all
call sites below pass `none` for the system instruction, as the source
does. -/
structure Env where
  search : String → Nat → Option (List SearchResult)
  selectUrls : ResearchPlan → List SearchResult → List String
  fetch : String → FetchOutcome
  gen : Option String → String → String

/-- JS `Promise.all` over an environment of pure calls: succeeds with the
list of values in order, or rejects as soon as any element rejects. -/
def promiseAll {α β ε : Type} (f : α → Except ε β) : List α → Except ε (List β)
  | [] => Except.ok []
  | a :: as =>
    match f a, promiseAll f as with
    | Except.ok b, Except.ok bs => Except.ok (b :: bs)
    | Except.error e, _ => Except.error e
    | Except.ok _, Except.error e => Except.error e

/-- src/main.ts `fetchWebContent`: non-200 status yields `null`
(modelled `none`); then the body is JSON-parsed (a parse throw rejects);
missing content or content shorter than 100 characters yields `null`;
otherwise the parsed body is returned as a `WebContent`. -/
def fetchWebContent (env : Env) (url : String) : Except Unit (Option WebContent) :=
  match env.fetch url with
  | FetchOutcome.fetchExn => Except.error ()
  | FetchOutcome.response status body =>
    if status ≠ 200 then Except.ok none
    else
      match body with
      | Except.error _ => Except.error ()
      | Except.ok data =>
        match data.content with
        | none => Except.ok none
        | some c =>
          if c.length < 100 then Except.ok none
          else Except.ok (some { title := data.title, content := c, url := data.url })

/-- The page whose fetch passed the validity filter, if any: `some c`
iff `fetchWebContent` returned a (non-null) `WebContent`. -/
def fetchValid (env : Env) (u : String) : Option WebContent :=
  match fetchWebContent env u with
  | Except.ok o => o
  | Except.error _ => none

/-- src/main.ts `MAX_PAGES`. -/
def MAX_PAGES : Nat := 5

/-- The search pagination loop of `processWebResearch`
(`for (let page = 1; page <= MAX_PAGES; page++)`).  `fuel` is the number
of iterations still allowed by the `page <= MAX_PAGES` bound.  Returns
the accumulated hits (in order, no deduplication) together with the list
of page numbers actually queried. -/
def searchPagesAux (env : Env) (q : String) : Nat → Nat → List SearchResult × List Nat
  | _, 0 => ([], [])
  | page, fuel + 1 =>
    match env.search q page with
    | none => ([], [page])
    | some [] => ([], [page])
    | some (r :: rs) =>
      let rest := searchPagesAux env q (page + 1) fuel
      (r :: rs ++ rest.1, page :: rest.2)

/-- All search hits accumulated across pages, and the pages queried. -/
def searchPages (env : Env) (q : String) : List SearchResult × List Nat :=
  searchPagesAux env q 1 MAX_PAGES

/-- The URLs chosen by the URL relevance selector for a web task, as in
`getRelevantUrls(allResults, research, spinner)`. -/
def selectedUrls (env : Env) (research : ResearchPlan) : List String :=
  env.selectUrls research (searchPages env research.query).1

/-- src/main.ts chunk size used by `summarizeContent`. -/
def chunkSize : Nat := 10000

/-- JS line terminators, which `.` in a regex without the `s` flag does
not match. -/
def isLineTerminator (c : Char) : Bool :=
  c = '\n' || c = '\r' || c = '\u2028' || c = '\u2029'

/-- Close the run being accumulated (characters are accumulated in
reverse). -/
def finishRun (acc : List Char) : List (List Char) :=
  match acc with
  | [] => []
  | _ :: _ => [acc.reverse]

/-- Split a character list into its maximal non-empty runs of
non-line-terminator characters. -/
def lineRunsAux : List Char → List Char → List (List Char)
  | [], acc => finishRun acc
  | c :: cs, acc =>
    if isLineTerminator c then finishRun acc ++ lineRunsAux cs []
    else lineRunsAux cs (c :: acc)

/-- Maximal non-empty runs of non-line-terminator characters. -/
def lineRuns (l : List Char) : List (List Char) :=
  lineRunsAux l []

/-- Greedily split one run into pieces of at most `n` characters, as the
regex quantifier `{1,n}` does.  `fuel` bounds the recursion; it is
instantiated with the length of the list, which suffices for `n ≥ 1`. -/
def chunkListAux (n : Nat) : Nat → List Char → List (List Char)
  | _, [] => []
  | 0, _ :: _ => []
  | fuel + 1, l => l.take n :: chunkListAux n fuel (l.drop n)

/-- Greedy pieces of at most `n` characters of one run. -/
def chunkList (n : Nat) (l : List Char) : List (List Char) :=
  chunkListAux n l.length l

/-- src/main.ts `content.match(new RegExp(".{1,10000}", "g")) || []`:
the matches of the global regex are the greedy at-most-10000-character
pieces of each maximal run of non-line-terminator characters, in order.
Line terminators appear in no match. -/
def jsMatchChunks (content : String) : List String :=
  ((lineRuns content.data).flatMap (chunkList chunkSize)).map (fun l => String.mk l)

/-- The per-chunk summarization prompt of `summarizeContent`. -/
def chunkPrompt (title : String) (index total : Nat) (objectives chunk : String) : String :=
  "Summarize the following content from \"" ++ title ++ "\" (part " ++
    toString (index + 1) ++ "/" ++ toString total ++
    "). Focus on key points related to: " ++ objectives ++ "\n\nContent:\n" ++ chunk

/-- The second-level (reduce) prompt of `summarizeContent`. -/
def combinePrompt (title objectives joined : String) : String :=
  "Combine these summaries from \"" ++ title ++
    "\" into a coherent summary. Focus on key points related to: " ++
    objectives ++ "\n\nSummaries:\n" ++ joined

/-- src/main.ts `summarizeContent`.  Returns the summary together with
the trace of generative-text calls made, in order, each as
`(system instruction, prompt)`.  The summary is an `Option` because
`chunkSummaries[0]` is `undefined` (modelled `none`) when the chunk list
is empty. -/
def summarizeContent (env : Env) (content title url : String) (research : ResearchPlan) :
    Option String × List (Option String × String) :=
  let chunks := jsMatchChunks content
  let prompts := chunks.enum.map (fun p =>
    chunkPrompt title p.1 chunks.length research.objectives p.2)
  let chunkSummaries := prompts.map (fun p => env.gen none p)
  if chunkSummaries.length > 1 then
    let combined := combinePrompt title research.objectives
      (String.intercalate "\n\n" chunkSummaries)
    (some (env.gen none combined),
      prompts.map (fun p => ((none : Option String), p)) ++ [(none, combined)])
  else
    (chunkSummaries.head?, prompts.map (fun p => ((none : Option String), p)))

/-- The final synthesis prompt of `processWebResearch`.  The summaries
may be `undefined`; JS `Array.prototype.join` renders `undefined`
elements as empty strings. -/
def webAnswerPrompt (research : ResearchPlan) (summaries : List (Option String)) : String :=
  "You\x27re conducting a research on " ++ research.title ++
    ". Your objective is " ++ research.objectives ++
    ". Here is the expected outcomes: " ++ research.expectedOutcomes ++
    ". Based on the following summaries from different sources, provide a comprehensive answer:\n\n" ++
    String.intercalate "\n\n" (summaries.map (fun s => s.getD ""))

/-- src/main.ts `processWebResearch`: paginate the search, select URLs,
fetch them all (`Promise.all` — one rejection rejects the task), keep the
non-null pages, summarize each, and synthesize the answer.  The
references are the `(url, title)` of every valid page. -/
def processWebResearch (env : Env) (research : ResearchPlan) : Except Unit ResearchSummary :=
  let allResults := (searchPages env research.query).1
  let relevantUrls := env.selectUrls research allResults
  match promiseAll (fetchWebContent env) relevantUrls with
  | Except.error e => Except.error e
  | Except.ok contents =>
    let validContents := contents.filterMap id
    let contentSummaries := validContents.map (fun c =>
      (summarizeContent env c.content c.title c.url research).1)
    Except.ok
      { answer := env.gen none (webAnswerPrompt research contentSummaries),
        references := validContents.map (fun c => { url := c.url, title := c.title }) }

/-- src/main.ts `processAiResearch`: one generative-text call with the
task query as the whole prompt and no system instruction; no references.
Returns the result together with the trace of generative-text calls. -/
def processAiResearch (env : Env) (research : ResearchPlan) :
    ResearchSummary × List (Option String × String) :=
  ({ answer := env.gen none research.query, references := [] },
    [((none : Option String), research.query)])

/-- The fan-out of `deepResearch` over the plan items
(`Promise.all(plan.researchPlan.map(...))` in src/main.ts): each item is
dispatched on its `type` to the web runner or the model-only runner. -/
def runResearchPlans (env : Env) (tasks : List ResearchPlan) :
    Except Unit (List ResearchSummary) :=
  promiseAll (fun research =>
    if research.type = ResearchType.web then processWebResearch env research
    else Except.ok (processAiResearch env research).1) tasks

/-- Truthiness of a JS array value: an array is truthy even when empty. -/
def jsTruthyArray {α : Type} (_ : List α) : Bool := true

/-- One reference line of the final report prompt. -/
def referenceLine (ref : Reference) : String :=
  "- (" ++ ref.url ++ ")[" ++ ref.title ++ "]"

/-- One numbered result entry of the final report prompt in
`deepResearch`: the answer followed by the conditional reference block
`e.references ? ... : ""` (the condition is JS truthiness of the
references array). -/
def reportResultEntry (i : Nat) (e : ResearchSummary) : String :=
  toString (i + 1) ++ ". " ++ e.answer ++
    (if jsTruthyArray e.references then
      "\nReferences:" ++ String.intercalate "\n" (e.references.map referenceLine)
    else "")

/-- The results block of the final report prompt. -/
def reportResultsBlock (summaries : List ResearchSummary) : String :=
  String.intercalate "\n" (summaries.enum.map (fun p => reportResultEntry p.1 p.2))

/-! Concrete plans and environments used to instantiate the theorems. -/

/-- A concrete web task. -/
def planWeb : ResearchPlan :=
  { title := "T", objectives := "O", expectedOutcomes := "E",
    type := ResearchType.web, query := "Q" }

/-- A concrete model-only task. -/
def planAi : ResearchPlan :=
  { title := "T2", objectives := "O2", expectedOutcomes := "E2",
    type := ResearchType.ai, query := "QA" }

/-- A 100-character page content, i.e. exactly at the validity
threshold. -/
def longContent : String := String.mk (List.replicate 100 'a')

/-- A 100-character content consisting only of newline characters. -/
def newlineContent : String := String.mk (List.replicate 100 '\n')

/-- An environment whose page fetch always rejects (a thrown
exception). -/
def envExn : Env :=
  { search := fun _ _ => none,
    selectUrls := fun _ _ => ["https://a.example"],
    fetch := fun _ => FetchOutcome.fetchExn,
    gen := fun _ _ => "A" }

/-- An environment with no search results and an empty URL selection. -/
def envOkEmpty : Env :=
  { search := fun _ _ => none,
    selectUrls := fun _ _ => [],
    fetch := fun _ => FetchOutcome.response 404 (Except.error ()),
    gen := fun _ _ => "A" }

/-- An environment whose URL selector returns a URL that does not occur
in any search hit; fetching it succeeds with valid content. -/
def envRogue : Env :=
  { search := fun _ p =>
      if p = 1 then some [{ title := "HitT", url := "https://hit.example", content := "s" }]
      else some [],
    selectUrls := fun _ _ => ["https://rogue.example"],
    fetch := fun _ =>
      FetchOutcome.response 200
        (Except.ok { title := "RogueT", url := "https://rogue.example", content := some longContent }),
    gen := fun _ _ => "A" }

/-- An environment whose URL selector only returns URLs of the search
hits and whose fetcher echoes the requested URL. -/
def envEcho : Env :=
  { search := fun _ p =>
      if p = 1 then some [{ title := "HitT", url := "https://hit.example", content := "s" }]
      else some [],
    selectUrls := fun _ results => results.map SearchResult.url,
    fetch := fun u =>
      FetchOutcome.response 200 (Except.ok { title := "PageT", url := u, content := some longContent }),
    gen := fun _ _ => "A" }

/-- An environment whose search provider returns one hit on pages 1 to 3
and an empty result list from page 4 on. -/
def envPages : Env :=
  { search := fun _ p =>
      if p ≤ 3 then some [{ title := "t", url := "u", content := "c" }]
      else some [],
    selectUrls := fun _ _ => [],
    fetch := fun _ => FetchOutcome.fetchExn,
    gen := fun _ _ => "A" }

/-! Helper lemmas. -/

theorem promiseAll_length {α β ε : Type} (f : α → Except ε β) :
    ∀ (l : List α) (bs : List β), promiseAll f l = Except.ok bs → bs.length = l.length := by
  intro l
  induction l with
  | nil =>
    intro bs h
    simp only [promiseAll] at h
    cases h
    rfl
  | cons a as ih =>
    intro bs h
    cases hfa : f a with
    | error e => simp [promiseAll, hfa] at h
    | ok b =>
      cases hps : promiseAll f as with
      | error e => simp [promiseAll, hfa, hps] at h
      | ok bs2 =>
        simp only [promiseAll, hfa, hps] at h
        cases h
        simp [ih bs2 hps]

theorem promiseAll_get {α β ε : Type} (f : α → Except ε β) :
    ∀ (l : List α) (bs : List β), promiseAll f l = Except.ok bs →
      ∀ (i : Nat) (hi : i < l.length) (hbi : i < bs.length),
        f (l.get ⟨i, hi⟩) = Except.ok (bs.get ⟨i, hbi⟩) := by
  intro l
  induction l with
  | nil =>
    intro bs h i hi hbi
    exact absurd hi (by simp)
  | cons a as ih =>
    intro bs h i hi hbi
    cases hfa : f a with
    | error e => simp [promiseAll, hfa] at h
    | ok b =>
      cases hps : promiseAll f as with
      | error e => simp [promiseAll, hfa, hps] at h
      | ok bs2 =>
        simp only [promiseAll, hfa, hps] at h
        cases h
        cases i with
        | zero => simpa using hfa
        | succ j =>
          simpa using ih bs2 hps j (by simpa using hi) (by simpa using hbi)

theorem promiseAll_fetch_ok (env : Env) :
    ∀ urls : List String,
      (∀ u ∈ urls, fetchWebContent env u ≠ Except.error ()) →
      promiseAll (fetchWebContent env) urls = Except.ok (urls.map (fetchValid env)) := by
  intro urls
  induction urls with
  | nil => intro _; rfl
  | cons u us ih =>
    intro h
    have hu := h u (by simp)
    have hus : ∀ v ∈ us, fetchWebContent env v ≠ Except.error () :=
      fun v hv => h v (by simp [hv])
    cases hfu : fetchWebContent env u with
    | error e => cases e; exact absurd hfu hu
    | ok o =>
      simp only [promiseAll, hfu, ih hus, List.map_cons]
      have hval : fetchValid env u = o := by simp [fetchValid, hfu]
      rw [hval]

theorem promiseAll_fetch_filterMap (env : Env) :
    ∀ (urls : List String) (contents : List (Option WebContent)),
      promiseAll (fetchWebContent env) urls = Except.ok contents →
      contents.filterMap id = urls.filterMap (fetchValid env) := by
  intro urls
  induction urls with
  | nil =>
    intro contents h
    simp only [promiseAll] at h
    cases h
    rfl
  | cons u us ih =>
    intro contents h
    cases hfu : fetchWebContent env u with
    | error e => simp [promiseAll, hfu] at h
    | ok o =>
      cases hps : promiseAll (fetchWebContent env) us with
      | error e => simp [promiseAll, hfu, hps] at h
      | ok cs =>
        simp only [promiseAll, hfu, hps] at h
        cases h
        have hval : fetchValid env u = o := by simp [fetchValid, hfu]
        cases o with
        | none => simp [List.filterMap_cons, hval, ih cs hps]
        | some c => simp [List.filterMap_cons, hval, ih cs hps]

theorem processWeb_ok (env : Env) (research : ResearchPlan)
    (hnoexn : ∀ u ∈ selectedUrls env research, fetchWebContent env u ≠ Except.error ()) :
    processWebResearch env research = Except.ok
      { answer := env.gen none (webAnswerPrompt research
          (((selectedUrls env research).filterMap (fetchValid env)).map (fun c =>
            (summarizeContent env c.content c.title c.url research).1))),
        references := ((selectedUrls env research).filterMap (fetchValid env)).map
          (fun c => { url := c.url, title := c.title }) } := by
  have h := promiseAll_fetch_ok env (selectedUrls env research) hnoexn
  simp only [selectedUrls] at h
  simp only [processWebResearch, h, selectedUrls]
  have hfm : ((env.selectUrls research (searchPages env research.query).1).map
        (fetchValid env)).filterMap id =
      (env.selectUrls research (searchPages env research.query).1).filterMap (fetchValid env) := by
    rw [List.filterMap_map]
    rfl
  rw [hfm]

theorem processWeb_ok_inv (env : Env) (research : ResearchPlan) (s : ResearchSummary)
    (hok : processWebResearch env research = Except.ok s) :
    s = { answer := env.gen none (webAnswerPrompt research
            (((selectedUrls env research).filterMap (fetchValid env)).map (fun c =>
              (summarizeContent env c.content c.title c.url research).1))),
          references := ((selectedUrls env research).filterMap (fetchValid env)).map
            (fun c => { url := c.url, title := c.title }) } := by
  simp only [processWebResearch] at hok
  cases hps : promiseAll (fetchWebContent env)
      (env.selectUrls research (searchPages env research.query).1) with
  | error e => rw [hps] at hok; cases hok
  | ok contents =>
    rw [hps] at hok
    cases hok
    have hfm := promiseAll_fetch_filterMap env _ contents hps
    simp only [selectedUrls, hfm]

theorem searchPagesAux_calls_le (env : Env) (q : String) :
    ∀ (fuel page : Nat), (searchPagesAux env q page fuel).2.length ≤ fuel := by
  intro fuel
  induction fuel with
  | zero => intro page; simp [searchPagesAux]
  | succ n ih =>
    intro page
    cases hs : env.search q page with
    | none => simp [searchPagesAux, hs]
    | some rs =>
      cases rs with
      | nil => simp [searchPagesAux, hs]
      | cons r rs2 =>
        simp only [searchPagesAux, hs, List.length_cons]
        exact Nat.succ_le_succ (ih (page + 1))

theorem finishRun_of_ne_nil (l : List Char) (h : l ≠ []) : finishRun l = [l.reverse] := by
  cases l with
  | nil => exact absurd rfl h
  | cons a t => rfl

theorem lineRunsAux_no_term :
    ∀ (l acc : List Char), (∀ c ∈ l, isLineTerminator c = false) →
      lineRunsAux l acc = finishRun (l.reverse ++ acc) := by
  intro l
  induction l with
  | nil => intro acc _; simp [lineRunsAux]
  | cons c cs ih =>
    intro acc h
    have hc : isLineTerminator c = false := h c (by simp)
    rw [lineRunsAux]
    rw [hc]
    simp only [Bool.false_eq_true, if_false]
    rw [ih (c :: acc) (fun d hd => h d (by simp [hd]))]
    congr 1
    simp

theorem lineRuns_single (l : List Char) (hne : l ≠ [])
    (h : ∀ c ∈ l, isLineTerminator c = false) : lineRuns l = [l] := by
  rw [lineRuns, lineRunsAux_no_term l [] h, List.append_nil,
    finishRun_of_ne_nil _ (by simpa using hne), List.reverse_reverse]

theorem chunkListAux_nil (n : Nat) : ∀ fuel, chunkListAux n fuel [] = [] := by
  intro fuel
  cases fuel <;> rfl

theorem chunkList_single (n : Nat) (l : List Char) (hne : l ≠ []) (hlen : l.length ≤ n) :
    chunkList n l = [l] := by
  cases l with
  | nil => exact absurd rfl hne
  | cons a t =>
    have h1 : chunkList n (a :: t) =
        (a :: t).take n :: chunkListAux n t.length ((a :: t).drop n) := rfl
    rw [h1, List.take_of_length_le hlen, List.drop_eq_nil_of_le hlen, chunkListAux_nil]

theorem jsMatchChunks_single (content : String)
    (hnl : ∀ c ∈ content.data, isLineTerminator c = false)
    (hne : content ≠ "") (hlen : content.length ≤ chunkSize) :
    jsMatchChunks content = [content] := by
  obtain ⟨l⟩ := content
  have hl : l ≠ [] := by
    intro heq
    subst heq
    exact hne rfl
  have hlen2 : l.length ≤ chunkSize := hlen
  have h1 : lineRuns l = [l] := lineRuns_single l hl hnl
  simp [jsMatchChunks, h1, chunkList_single chunkSize l hl hlen2]

theorem summarizeContent_of_chunks_nil (env : Env) (content title url : String)
    (research : ResearchPlan) (h : jsMatchChunks content = []) :
    summarizeContent env content title url research = (none, []) := by
  simp [summarizeContent, h]

theorem summarizeContent_of_chunks_single (env : Env) (content title url : String)
    (research : ResearchPlan) (h : jsMatchChunks content = [content]) :
    summarizeContent env content title url research =
      (some (env.gen none (chunkPrompt title 0 1 research.objectives content)),
        [((none : Option String), chunkPrompt title 0 1 research.objectives content)]) := by
  have henum : List.enum [content] = [(0, content)] := rfl
  simp [summarizeContent, h, henum]

theorem summarizeContent_trace_length (env : Env) (content title url : String)
    (research : ResearchPlan) :
    (summarizeContent env content title url research).2.length =
      (jsMatchChunks content).length +
        (if 1 < (jsMatchChunks content).length then 1 else 0) := by
  by_cases h : 1 < (jsMatchChunks content).length
  · simp [summarizeContent, h]
  · simp [summarizeContent, h]

/-! Claim theorems. -/

/-- C8: for every task of kind ai, the model-only runner makes a single
generative-text call whose entire prompt is the task query with no
system instruction, and returns a result whose references list is
empty. -/
theorem c8_ai_runner_single_call (env : Env) (research : ResearchPlan) :
    (processAiResearch env research).2 = [((none : Option String), research.query)] ∧
    (processAiResearch env research).1.answer = env.gen none research.query ∧
    (processAiResearch env research).1.references = [] :=
  ⟨rfl, rfl, rfl⟩

set_option maxRecDepth 4000 in
/-- C9: there is an input satisfying the pipeline validity precondition
(length at least 100) — a string consisting only of newline characters —
on which the chunking step produces zero chunks and `summarizeContent`
yields `undefined` (modelled `none`) instead of a string, making no
model call at all. -/
theorem c9_newline_content_undefined :
    ∃ content : String, 100 ≤ content.length ∧ jsMatchChunks content = [] ∧
      ∀ (env : Env) (title url : String) (research : ResearchPlan),
        summarizeContent env content title url research = (none, []) := by
  have hc : jsMatchChunks newlineContent = [] := by decide
  exact ⟨newlineContent, by decide, hc,
    fun env title url research => summarizeContent_of_chunks_nil env _ title url research hc⟩

/-- C10: the conditional guarding the reference block of the report
prompt never takes its empty branch, because a JS array is truthy even
when empty: every result entry carries the "References:" header, and in
particular every model-only result (zero references) contributes the
bare header. -/
theorem c10_references_header_always (i : Nat) (e : ResearchSummary) :
    reportResultEntry i e =
      toString (i + 1) ++ ". " ++ e.answer ++
        ("\nReferences:" ++ String.intercalate "\n" (e.references.map referenceLine)) ∧
    ∀ (env : Env) (research : ResearchPlan),
      reportResultEntry i (processAiResearch env research).1 =
        toString (i + 1) ++ ". " ++ env.gen none research.query ++ "\nReferences:" := by
  constructor
  · simp [reportResultEntry, jsTruthyArray]
  · intro env research
    simp only [reportResultEntry, jsTruthyArray, processAiResearch, List.map_nil, if_true]
    have h0 : "\n".intercalate ([] : List String) = "" := rfl
    rw [h0, String.append_empty]

/-- C2 counterexample: the three-character content `"a\nb"` has length at
most 10000, yet it is split into two chunks — the newline is dropped,
refuting the fixed-size-chunks description — and three model calls are
made instead of one. -/
theorem c2_small_input_three_calls :
    ("a\nb" : String).length ≤ 10000 ∧
    jsMatchChunks "a\nb" = ["a", "b"] ∧
    (summarizeContent envOkEmpty "a\nb" "T" "U" planWeb).2.length = 3 :=
  ⟨by decide, by decide, by decide⟩

/-- C2 (amended): `summarizeContent` splits the content into the greedy
at-most-10000-character pieces of each maximal run of non-line-terminator
characters (line terminators are dropped and act as chunk boundaries).
For non-empty content without line terminators and of length at most
10000 there is exactly one chunk and exactly one model call, whose output
is returned unmodified; in general K chunks yield K model calls when
K ≤ 1 and K + 1 (K map calls plus one reduce call) when K > 1. -/
theorem c2_chunking_calls (env : Env) (content title url : String) (research : ResearchPlan)
    (hnl : ∀ c ∈ content.data, isLineTerminator c = false)
    (hne : content ≠ "") (hlen : content.length ≤ chunkSize) :
    jsMatchChunks content = [content] ∧
    summarizeContent env content title url research =
      (some (env.gen none (chunkPrompt title 0 1 research.objectives content)),
        [((none : Option String), chunkPrompt title 0 1 research.objectives content)]) ∧
    ∀ content2 : String,
      (summarizeContent env content2 title url research).2.length =
        (jsMatchChunks content2).length +
          (if 1 < (jsMatchChunks content2).length then 1 else 0) := by
  have h1 := jsMatchChunks_single content hnl hne hlen
  exact ⟨h1, summarizeContent_of_chunks_single env content title url research h1,
    fun content2 => summarizeContent_trace_length env content2 title url research⟩

/-- C2 witness: the amended chunking law instantiated at the concrete
content `"ab"`. -/
theorem c2_chunking_calls_witness :
    jsMatchChunks "ab" = ["ab"] ∧
    summarizeContent envOkEmpty "ab" "T" "U" planWeb =
      (some (envOkEmpty.gen none (chunkPrompt "T" 0 1 planWeb.objectives "ab")),
        [((none : Option String), chunkPrompt "T" 0 1 planWeb.objectives "ab")]) :=
  And.intro
    (c2_chunking_calls envOkEmpty "ab" "T" "U" planWeb (by decide) (by decide) (by decide)).1
    (c2_chunking_calls envOkEmpty "ab" "T" "U" planWeb (by decide) (by decide) (by decide)).2.1

/-- C1 counterexample: with one selected URL whose fetch throws, the
whole web task rejects — the exception propagates as a task failure
instead of being silently omitted. -/
theorem c1_exception_aborts_task :
    processWebResearch envExn planWeb = Except.error () := rfl

/-- C1 (amended): a page fetch that yields a non-200 status is silently
dropped (`null`, never a rejection), and as long as no selected fetch
throws, the task always produces a `TaskResult` built from the remaining
(valid) pages; an exception thrown by the fetch or by JSON parsing,
however, is unhandled and rejects the whole task. -/
theorem c1_fetch_failure_isolated (env : Env) (research : ResearchPlan)
    (hnoexn : ∀ u ∈ selectedUrls env research, fetchWebContent env u ≠ Except.error ()) :
    processWebResearch env research = Except.ok
      { answer := env.gen none (webAnswerPrompt research
          (((selectedUrls env research).filterMap (fetchValid env)).map (fun c =>
            (summarizeContent env c.content c.title c.url research).1))),
        references := ((selectedUrls env research).filterMap (fetchValid env)).map
          (fun c => { url := c.url, title := c.title }) } ∧
    ∀ (u : String) (st : Nat) (body : Except Unit ParsedPage),
      env.fetch u = FetchOutcome.response st body → st ≠ 200 →
        fetchWebContent env u = Except.ok none := by
  constructor
  · exact processWeb_ok env research hnoexn
  · intro u st body hf hst
    simp [fetchWebContent, hf, hst]

/-- C1 witness: the amended statement instantiated at an environment
with an empty URL selection. -/
theorem c1_fetch_failure_isolated_witness :
    processWebResearch envOkEmpty planWeb = Except.ok
      { answer := envOkEmpty.gen none (webAnswerPrompt planWeb
          (((selectedUrls envOkEmpty planWeb).filterMap (fetchValid envOkEmpty)).map (fun c =>
            (summarizeContent envOkEmpty c.content c.title c.url planWeb).1))),
        references := ((selectedUrls envOkEmpty planWeb).filterMap (fetchValid envOkEmpty)).map
          (fun c => { url := c.url, title := c.title }) } :=
  (c1_fetch_failure_isolated envOkEmpty planWeb (by
    intro u hu
    have h : selectedUrls envOkEmpty planWeb = [] := rfl
    rw [h] at hu
    exact absurd hu (List.not_mem_nil u))).1

/-- C4: a web task's references are exactly the (url, title) pairs of
the pages that passed the validity filter — independent of whether the
answer cites them — and a fetch with status ≠ 200, missing content, or
content shorter than 100 characters never passes that filter. -/
theorem c4_references_exact (env : Env) (research : ResearchPlan) (s : ResearchSummary)
    (hok : processWebResearch env research = Except.ok s) :
    s.references = ((selectedUrls env research).filterMap (fetchValid env)).map
        (fun c => ({ url := c.url, title := c.title } : Reference)) ∧
    (∀ (u : String) (st : Nat) (body : Except Unit ParsedPage),
      env.fetch u = FetchOutcome.response st body → st ≠ 200 → fetchValid env u = none) ∧
    (∀ (u : String) (st : Nat) (data : ParsedPage),
      env.fetch u = FetchOutcome.response st (Except.ok data) → data.content = none →
        fetchValid env u = none) ∧
    (∀ (u : String) (st : Nat) (data : ParsedPage) (c : String),
      env.fetch u = FetchOutcome.response st (Except.ok data) → data.content = some c →
        c.length < 100 → fetchValid env u = none) := by
  refine ⟨?_, ?_, ?_, ?_⟩
  · rw [processWeb_ok_inv env research s hok]
  · intro u st body hf hst
    simp [fetchValid, fetchWebContent, hf, hst]
  · intro u st data hf hc
    by_cases hst : st = 200
    · subst hst
      simp [fetchValid, fetchWebContent, hf, hc]
    · simp [fetchValid, fetchWebContent, hf, hst]
  · intro u st data c hf hc hlen
    by_cases hst : st = 200
    · subst hst
      simp [fetchValid, fetchWebContent, hf, hc, hlen]
    · simp [fetchValid, fetchWebContent, hf, hst]

/-- C4 witness: the reference characterization instantiated at a
concrete run with empty selection. -/
theorem c4_references_exact_witness :
    ({ answer := "A", references := [] } : ResearchSummary).references =
      ((selectedUrls envOkEmpty planWeb).filterMap (fetchValid envOkEmpty)).map
        (fun c => ({ url := c.url, title := c.title } : Reference)) :=
  (c4_references_exact envOkEmpty planWeb { answer := "A", references := [] } rfl).1

/-- C7: when zero pages survive selection or fetching (and no selected
fetch throws), the synthesis step still runs on an empty summary list:
the task yields a `TaskResult` with empty references and an answer
produced by the generative service — it is not an error. -/
theorem c7_empty_evidence_ok (env : Env) (research : ResearchPlan)
    (hnone : ∀ u ∈ selectedUrls env research, fetchValid env u = none)
    (hnoexn : ∀ u ∈ selectedUrls env research, fetchWebContent env u ≠ Except.error ()) :
    processWebResearch env research =
      Except.ok { answer := env.gen none (webAnswerPrompt research []), references := [] } := by
  have h := processWeb_ok env research hnoexn
  have hfm : (selectedUrls env research).filterMap (fetchValid env) = [] :=
    List.filterMap_eq_nil_iff.mpr hnone
  rw [h, hfm]
  simp

/-- C7 witness: an environment with zero search hits (hence an empty
URL selection) still yields an ok result with empty references. -/
theorem c7_empty_evidence_ok_witness :
    processWebResearch envOkEmpty planWeb =
      Except.ok
        { answer := envOkEmpty.gen none (webAnswerPrompt planWeb []),
          references := [] } :=
  c7_empty_evidence_ok envOkEmpty planWeb
    (by
      intro u hu
      have h : selectedUrls envOkEmpty planWeb = [] := rfl
      rw [h] at hu
      exact absurd hu (List.not_mem_nil u))
    (by
      intro u hu
      have h : selectedUrls envOkEmpty planWeb = [] := rfl
      rw [h] at hu
      exact absurd hu (List.not_mem_nil u))

theorem searchPagesAux_empty (env : Env) (q : String) (page fuel : Nat)
    (h : env.search q page = some []) :
    searchPagesAux env q page (fuel + 1) = ([], [page]) := by
  conv_lhs => rw [searchPagesAux]
  rw [h]

theorem searchPagesAux_cons (env : Env) (q : String) (page fuel : Nat) (r : SearchResult)
    (rs : List SearchResult) (h : env.search q page = some (r :: rs)) :
    searchPagesAux env q page (fuel + 1) =
      (r :: rs ++ (searchPagesAux env q (page + 1) fuel).1,
        page :: (searchPagesAux env q (page + 1) fuel).2) := by
  conv_lhs => rw [searchPagesAux]
  rw [h]

/-- C6: pagination halts at the first empty (or absent) page or after 5
pages, whichever comes first.  With non-empty results on pages 1–3 and
an empty page 4, exactly the pages 1,2,3,4 are queried (page 5 never),
the hits of the queried non-empty pages are accumulated in order with no
deduplication, and in general at most `MAX_PAGES` pages are ever
queried. -/
theorem c6_pagination_halts (env : Env) (q : String) (r1 r2 r3 : List SearchResult)
    (h1 : env.search q 1 = some r1) (hne1 : r1 ≠ [])
    (h2 : env.search q 2 = some r2) (hne2 : r2 ≠ [])
    (h3 : env.search q 3 = some r3) (hne3 : r3 ≠ [])
    (h4 : env.search q 4 = some []) :
    (searchPages env q).2 = [1, 2, 3, 4] ∧
    (searchPages env q).1 = r1 ++ (r2 ++ r3) ∧
    ∀ (env2 : Env) (q2 : String), (searchPages env2 q2).2.length ≤ MAX_PAGES := by
  obtain ⟨a1, t1, rfl⟩ := List.exists_cons_of_ne_nil hne1
  obtain ⟨a2, t2, rfl⟩ := List.exists_cons_of_ne_nil hne2
  obtain ⟨a3, t3, rfl⟩ := List.exists_cons_of_ne_nil hne3
  have s4 : searchPagesAux env q 4 2 = ([], [4]) := searchPagesAux_empty env q 4 1 h4
  have s3 : searchPagesAux env q 3 3 =
      (a3 :: t3 ++ (searchPagesAux env q 4 2).1, 3 :: (searchPagesAux env q 4 2).2) :=
    searchPagesAux_cons env q 3 2 a3 t3 h3
  rw [s4] at s3
  have s2 : searchPagesAux env q 2 4 =
      (a2 :: t2 ++ (searchPagesAux env q 3 3).1, 2 :: (searchPagesAux env q 3 3).2) :=
    searchPagesAux_cons env q 2 3 a2 t2 h2
  rw [s3] at s2
  have s1 : searchPagesAux env q 1 5 =
      (a1 :: t1 ++ (searchPagesAux env q 2 4).1, 1 :: (searchPagesAux env q 2 4).2) :=
    searchPagesAux_cons env q 1 4 a1 t1 h1
  rw [s2] at s1
  have e : searchPages env q = searchPagesAux env q 1 5 := rfl
  refine ⟨?_, ?_, fun env2 q2 => searchPagesAux_calls_le env2 q2 MAX_PAGES 1⟩
  · rw [e, s1]
  · rw [e, s1]
    simp

/-- C6 witness: the pagination theorem instantiated at a provider with
one hit on each of pages 1–3 and an empty page 4. -/
theorem c6_pagination_halts_witness :
    (searchPages envPages "Q").2 = [1, 2, 3, 4] ∧
    (searchPages envPages "Q").1 =
      [{ title := "t", url := "u", content := "c" }] ++
        ([{ title := "t", url := "u", content := "c" }] ++
          [({ title := "t", url := "u", content := "c" } : SearchResult)]) :=
  And.intro
    (c6_pagination_halts envPages "Q" _ _ _ rfl (by decide) rfl (by decide) rfl (by decide) rfl).1
    (c6_pagination_halts envPages "Q" _ _ _ rfl (by decide) rfl (by decide) rfl (by decide) rfl).2.1

/-- C3: whenever the fan-out over the plan items returns, it returns
exactly one result per planned task, in plan order; a task of kind web
is executed by the web runner and a task of kind ai by the model-only
runner — no task is processed twice, none skipped. -/
theorem c3_one_result_per_task (env : Env) (tasks : List ResearchPlan)
    (rs : List ResearchSummary) (hok : runResearchPlans env tasks = Except.ok rs) :
    rs.length = tasks.length ∧
    ∀ (i : Nat) (hi : i < tasks.length) (hri : i < rs.length),
      (if (tasks.get ⟨i, hi⟩).type = ResearchType.web
       then processWebResearch env (tasks.get ⟨i, hi⟩) = Except.ok (rs.get ⟨i, hri⟩)
       else rs.get ⟨i, hri⟩ = (processAiResearch env (tasks.get ⟨i, hi⟩)).1) := by
  simp only [runResearchPlans] at hok
  constructor
  · exact promiseAll_length _ tasks rs hok
  · intro i hi hri
    have h := promiseAll_get _ tasks rs hok i hi hri
    by_cases hw : (tasks.get ⟨i, hi⟩).type = ResearchType.web
    · rw [if_pos hw]
      rw [if_pos hw] at h
      exact h
    · rw [if_neg hw]
      rw [if_neg hw] at h
      injection h with h2
      exact h2.symm

/-- C3 witness: the fan-out instantiated at a two-task plan (one web
task, one ai task). -/
theorem c3_one_result_per_task_witness :
    ([({ answer := "A", references := [] } : ResearchSummary),
        { answer := "A", references := [] }]).length =
      ([planWeb, planAi] : List ResearchPlan).length :=
  (c3_one_result_per_task envOkEmpty [planWeb, planAi]
    [{ answer := "A", references := [] }, { answer := "A", references := [] }] rfl).1

set_option maxRecDepth 8000 in
/-- C5 counterexample: the URL relevance selector is an unconstrained
model call, so it can return a URL absent from every search hit; here
its fetch succeeds with valid content, and the rogue URL appears in the
task's references although the search provider never returned it. -/
theorem c5_rogue_url_in_references :
    processWebResearch envRogue planWeb =
      Except.ok
        { answer := "A",
          references := [{ url := "https://rogue.example", title := "RogueT" }] } ∧
    ¬ "https://rogue.example" ∈ ((searchPages envRogue planWeb.query).1.map SearchResult.url) :=
  ⟨rfl, by decide⟩

/-- C5 (amended): a web task's reference URLs are the url fields of the
valid fetched pages for the selector-chosen URLs; they are a subset of
the search provider's URLs for the task query whenever the selector
returns only URLs of the search hits and the fetcher echoes the
requested URL — neither side condition is enforced by the code. -/
theorem c5_references_subset_conditional (env : Env) (research : ResearchPlan)
    (s : ResearchSummary)
    (hok : processWebResearch env research = Except.ok s)
    (hsel : ∀ u ∈ selectedUrls env research,
      u ∈ (searchPages env research.query).1.map SearchResult.url)
    (hecho : ∀ (u : String) (c : WebContent), fetchValid env u = some c → c.url = u) :
    ∀ ref ∈ s.references,
      ref.url ∈ (searchPages env research.query).1.map SearchResult.url := by
  intro ref href
  rw [processWeb_ok_inv env research s hok] at href
  simp only [List.mem_map] at href
  obtain ⟨c, hc, hrefeq⟩ := href
  rw [List.mem_filterMap] at hc
  obtain ⟨u, hu, hval⟩ := hc
  subst hrefeq
  show c.url ∈ (searchPages env research.query).1.map SearchResult.url
  rw [hecho u c hval]
  exact hsel u hu

set_option maxRecDepth 8000 in
/-- C5 witness: the conditional subset statement instantiated at an
environment whose selector picks exactly the hit URLs and whose fetcher
echoes the requested URL. -/
theorem c5_references_subset_conditional_witness :
    ({ url := "https://hit.example", title := "PageT" } : Reference).url ∈
      (searchPages envEcho planWeb.query).1.map SearchResult.url :=
  c5_references_subset_conditional envEcho planWeb
    { answer := "A", references := [{ url := "https://hit.example", title := "PageT" }] }
    rfl
    (by
      intro u hu
      have hs : selectedUrls envEcho planWeb = ["https://hit.example"] := rfl
      rw [hs] at hu
      simp at hu
      subst hu
      decide)
    (by
      intro u c h
      have hv : fetchValid envEcho u =
          some { title := "PageT", content := longContent, url := u } := rfl
      rw [hv] at h
      cases h
      rfl)
    { url := "https://hit.example", title := "PageT" }
    (by decide)
